import Mathlib

/-!
Verification of the Gojek review scraper (`scraping_gojek.py`).

The program has three parts that the properties below are about:

* `scrape_gojek_reviews` — a paginated fetch loop: while fewer than `count`
  records have been accumulated it requests `min(100, count - len(acc))`
  records from the review source, appends the returned batch, stops when the
  returned continuation token is `None`, sleeps 2 seconds otherwise, and on
  any exception breaks out of the loop keeping what was accumulated.
* the duplicate-column repair in `main` — if the column list has duplicates,
  it rebuilds it appending `_k` to the k-th repeated occurrence of a name.
* the persistence code in `main` — a hand-rolled CSV writer (values are
  stringified with `,`→`;`, `\n`→` `, `\r`→` `, `None`→empty) and a JSON dump
  with a line-per-record (JSONL) fallback that reuses the `records` variable
  bound inside the primary `try` block.

The fetch loop is embedded as a fuel-indexed function over an explicit state
that also records the observable trace (number of source calls, sleeps,
batches received, requested batch sizes).  Fuel exhaustion is reported by the
`Bool` component (`false` = the loop was still running), so the state after
any finite number of iterations of the real loop is the `.1` component of a
run with that much fuel.
-/

namespace Gojek

/-- Outcome of one call to the external review source
(`google_play_scraper.reviews`): a batch of records together with the next
continuation token, or a raised exception. -/
inductive SourceResponse (R C : Type) where
  | ok (records : List R) (token : Option C)
  | err
deriving DecidableEq

/-- State of the fetch loop of `scrape_gojek_reviews`, together with the trace
the loop has produced so far: `acc` is `all_reviews`, `token` is
`continuation_token`, `calls` counts calls made to the source, `slept` counts
executed `time.sleep(2)` statements, `batches` records each successful call's
records paired with whether its returned token was present, `reqs` records
each call's `(len(all_reviews), batch_size)` at the moment of the call, and
`errored` is set when an exception from the source broke the loop. -/
structure FetchState (R C : Type) where
  acc : List R
  token : Option C
  calls : Nat
  slept : Nat
  batches : List (List R × Bool)
  reqs : List (Nat × Nat)
  errored : Bool
deriving DecidableEq

/-- The state at entry of `scrape_gojek_reviews`: empty accumulator, no
continuation token, empty trace. -/
def initState (R C : Type) : FetchState R C :=
  { acc := [], token := none, calls := 0, slept := 0,
    batches := [], reqs := [], errored := false }

/-- The `while len(all_reviews) < count` loop of `scrape_gojek_reviews`.
`source` maps the index of the call and the requested batch size to the
source's response (the continuation token passed to the source is determined
by the state, so indexing calls by their position loses no generality).
One unit of fuel is one loop iteration; the `Bool` result is `true` when the
loop exited by itself and `false` when fuel ran out mid-loop. -/
def fetchLoop {R C : Type} (count : Nat) (source : Nat → Nat → SourceResponse R C) :
    Nat → FetchState R C → FetchState R C × Bool
  | 0, s => (s, false)
  | fuel + 1, s =>
    if s.acc.length < count then
      match source s.calls (min 100 (count - s.acc.length)) with
      | .err =>
          -- `except Exception: ... break`
          ({ acc := s.acc, token := s.token, calls := s.calls + 1, slept := s.slept,
             batches := s.batches,
             reqs := s.reqs ++ [(s.acc.length, min 100 (count - s.acc.length))],
             errored := true }, true)
      | .ok recs none =>
          -- `if continuation_token is None: break`  (no sleep)
          ({ acc := s.acc ++ recs, token := none, calls := s.calls + 1, slept := s.slept,
             batches := s.batches ++ [(recs, false)],
             reqs := s.reqs ++ [(s.acc.length, min 100 (count - s.acc.length))],
             errored := s.errored }, true)
      | .ok recs (some c) =>
          -- token present: `time.sleep(2)` and loop again
          fetchLoop count source fuel
            { acc := s.acc ++ recs, token := some c, calls := s.calls + 1,
              slept := s.slept + 1,
              batches := s.batches ++ [(recs, true)],
              reqs := s.reqs ++ [(s.acc.length, min 100 (count - s.acc.length))],
              errored := s.errored }
    else (s, true)

/-- The accumulated review list is always the concatenation, in order, of the
batches the source returned on the successful calls. -/
theorem fetchLoop_acc_join {R C : Type} (count : Nat)
    (source : Nat → Nat → SourceResponse R C) :
    ∀ (fuel : Nat) (s : FetchState R C),
      s.acc = (s.batches.map Prod.fst).flatten →
      (fetchLoop count source fuel s).1.acc =
        ((fetchLoop count source fuel s).1.batches.map Prod.fst).flatten := by
  intro fuel
  induction fuel with
  | zero => intro s h; simpa [fetchLoop] using h
  | succ n ih =>
    intro s h
    rw [fetchLoop]
    by_cases hlt : s.acc.length < count
    · rw [if_pos hlt]
      cases hE : source s.calls (min 100 (count - s.acc.length)) with
      | err => simpa using h
      | ok recs tok =>
        cases tok with
        | none => simp [h]
        | some c => exact ih _ (by simp [h])
    · rw [if_neg hlt]; exact h

/-- Trace bookkeeping: while the loop is running `errored` stays `false` and
`calls` equals the number of successful batches; when an exception from the
source ends the run, exactly one more call than successful batch was made and
the loop really did exit (it did not merely run out of fuel). -/
theorem fetchLoop_calls_batches {R C : Type} (count : Nat)
    (source : Nat → Nat → SourceResponse R C) :
    ∀ (fuel : Nat) (s : FetchState R C),
      s.errored = false → s.calls = s.batches.length →
      ((fetchLoop count source fuel s).1.errored = false →
        (fetchLoop count source fuel s).1.calls =
          (fetchLoop count source fuel s).1.batches.length) ∧
      ((fetchLoop count source fuel s).1.errored = true →
        (fetchLoop count source fuel s).1.calls =
          (fetchLoop count source fuel s).1.batches.length + 1 ∧
        (fetchLoop count source fuel s).2 = true) := by
  intro fuel
  induction fuel with
  | zero =>
    intro s he hc
    constructor
    · intro _; simpa [fetchLoop] using hc
    · intro h; simp [fetchLoop, he] at h
  | succ n ih =>
    intro s he hc
    rw [fetchLoop]
    by_cases hlt : s.acc.length < count
    · rw [if_pos hlt]
      cases hE : source s.calls (min 100 (count - s.acc.length)) with
      | err =>
        refine ⟨fun h => by simp at h, fun _ => ⟨by simp [hc], rfl⟩⟩
      | ok recs tok =>
        cases tok with
        | none =>
          refine ⟨fun _ => by simp [hc], fun h => ?_⟩
          simp [he] at h
        | some c => exact ih _ (by simpa using he) (by simp [hc])
    · rw [if_neg hlt]
      exact ⟨fun _ => hc, fun h => absurd h (by simp [he])⟩

/-- The number of executed sleeps always equals the number of successful
batches whose returned continuation token was present. -/
theorem fetchLoop_slept {R C : Type} (count : Nat)
    (source : Nat → Nat → SourceResponse R C) :
    ∀ (fuel : Nat) (s : FetchState R C),
      s.slept = (s.batches.filter (fun b => b.2)).length →
      (fetchLoop count source fuel s).1.slept =
        ((fetchLoop count source fuel s).1.batches.filter (fun b => b.2)).length := by
  intro fuel
  induction fuel with
  | zero => intro s h; simpa [fetchLoop] using h
  | succ n ih =>
    intro s h
    rw [fetchLoop]
    by_cases hlt : s.acc.length < count
    · rw [if_pos hlt]
      cases hE : source s.calls (min 100 (count - s.acc.length)) with
      | err => simpa using h
      | ok recs tok =>
        cases tok with
        | none => simp [h, List.filter_append]
        | some c => exact ih _ (by simp [h, List.filter_append])
    · rw [if_neg hlt]; exact h

/-- Every recorded request was made with the accumulator strictly below the
target and asked for exactly `min 100 (count - accumulated)` records. -/
theorem fetchLoop_reqs {R C : Type} (count : Nat)
    (source : Nat → Nat → SourceResponse R C) :
    ∀ (fuel : Nat) (s : FetchState R C),
      (∀ p ∈ s.reqs, p.1 < count ∧ p.2 = min 100 (count - p.1)) →
      ∀ p ∈ (fetchLoop count source fuel s).1.reqs,
        p.1 < count ∧ p.2 = min 100 (count - p.1) := by
  intro fuel
  induction fuel with
  | zero => intro s h; simpa [fetchLoop] using h
  | succ n ih =>
    intro s h
    rw [fetchLoop]
    by_cases hlt : s.acc.length < count
    · rw [if_pos hlt]
      cases hE : source s.calls (min 100 (count - s.acc.length)) with
      | err =>
        intro p hp
        simp only [List.mem_append, List.mem_singleton] at hp
        rcases hp with hp | hp
        · exact h p hp
        · subst hp; exact ⟨hlt, rfl⟩
      | ok recs tok =>
        cases tok with
        | none =>
          intro p hp
          simp only [List.mem_append, List.mem_singleton] at hp
          rcases hp with hp | hp
          · exact h p hp
          · subst hp; exact ⟨hlt, rfl⟩
        | some c =>
          refine ih _ ?_
          intro p hp
          simp only [List.mem_append, List.mem_singleton] at hp
          rcases hp with hp | hp
          · exact h p hp
          · subst hp; exact ⟨hlt, rfl⟩
    · rw [if_neg hlt]; exact h

/-- If every source call returns at most the requested number of records, the
accumulator never exceeds the target. -/
theorem fetchLoop_acc_le {R C : Type} (count : Nat)
    (source : Nat → Nat → SourceResponse R C)
    (hsrc : ∀ k bs recs tok, source k bs = SourceResponse.ok recs tok →
      recs.length ≤ bs) :
    ∀ (fuel : Nat) (s : FetchState R C),
      s.acc.length ≤ count → (fetchLoop count source fuel s).1.acc.length ≤ count := by
  intro fuel
  induction fuel with
  | zero => intro s h; simpa [fetchLoop] using h
  | succ n ih =>
    intro s h
    rw [fetchLoop]
    by_cases hlt : s.acc.length < count
    · rw [if_pos hlt]
      cases hE : source s.calls (min 100 (count - s.acc.length)) with
      | err => simpa using h
      | ok recs tok =>
        have hlen : recs.length ≤ min 100 (count - s.acc.length) := hsrc _ _ _ _ hE
        cases tok with
        | none => simp only [List.length_append]; omega
        | some c =>
          refine ih _ ?_
          simp only [List.length_append]
          omega
    · rw [if_neg hlt]; exact h

/-- If every successful source call returns exactly the requested number of
records, a run from state `s` makes at most
`ceil((count - accumulated) / 100)` further calls. -/
theorem fetchLoop_calls_bound {R C : Type} (count : Nat)
    (source : Nat → Nat → SourceResponse R C)
    (hfull : ∀ k bs recs tok, source k bs = SourceResponse.ok recs tok →
      recs.length = bs) :
    ∀ (fuel : Nat) (s : FetchState R C),
      (fetchLoop count source fuel s).1.calls ≤
        s.calls + (count - s.acc.length + 99) / 100 := by
  intro fuel
  induction fuel with
  | zero => intro s; simp [fetchLoop]
  | succ n ih =>
    intro s
    rw [fetchLoop]
    by_cases hlt : s.acc.length < count
    · rw [if_pos hlt]
      cases hE : source s.calls (min 100 (count - s.acc.length)) with
      | err =>
        dsimp only
        omega
      | ok recs tok =>
        have hlen : recs.length = min 100 (count - s.acc.length) := hfull _ _ _ _ hE
        cases tok with
        | none =>
          dsimp only
          omega
        | some c =>
          dsimp only
          refine le_trans (ih _) ?_
          dsimp only
          simp only [List.length_append]
          omega
    · rw [if_neg hlt]; dsimp only; omega

/-- The flattening of a prefix of a list of lists is never longer than the
flattening of the whole list. -/
theorem flatten_take_length_le {R : Type} (L : List (List R)) (i : Nat) :
    ((L.take i).flatten).length ≤ L.flatten.length := by
  conv_rhs => rw [← List.take_append_drop i L]
  rw [List.flatten_append, List.length_append]
  exact Nat.le_add_right _ _

/-- C1: for every positive target, provided each source call returns at most
the requested number of records, the accumulated record count never exceeds
the target at any iteration (every prefix of the batch sequence flattens to at
most `count` records, and so does the final accumulator), and every source
call requested exactly `min 100 (count - accumulated-so-far)` records with the
accumulator strictly below the target at the moment of the call. -/
theorem fetch_count_invariant {R C : Type} (count : Nat) (hpos : 0 < count)
    (source : Nat → Nat → SourceResponse R C)
    (hsrc : ∀ k bs recs tok, source k bs = SourceResponse.ok recs tok →
      recs.length ≤ bs) (fuel : Nat) :
    (fetchLoop count source fuel (initState R C)).1.acc.length ≤ count ∧
    (∀ i, ((((fetchLoop count source fuel (initState R C)).1.batches.map
        Prod.fst).take i).flatten).length ≤ count) ∧
    (∀ p ∈ (fetchLoop count source fuel (initState R C)).1.reqs,
      p.1 < count ∧ p.2 = min 100 (count - p.1)) := by
  have hacc := fetchLoop_acc_le count source hsrc fuel (initState R C)
    (by simp [initState])
  have hjoin := fetchLoop_acc_join count source fuel (initState R C)
    (by simp [initState])
  have hreq := fetchLoop_reqs count source fuel (initState R C)
    (by simp [initState])
  refine ⟨hacc, fun i => ?_, hreq⟩
  calc ((((fetchLoop count source fuel (initState R C)).1.batches.map
        Prod.fst).take i).flatten).length
      ≤ (((fetchLoop count source fuel (initState R C)).1.batches.map
        Prod.fst).flatten).length := flatten_take_length_le _ _
    _ = (fetchLoop count source fuel (initState R C)).1.acc.length := by
        rw [← hjoin]
    _ ≤ count := hacc

/-- A source used to witness C1: it always answers with an empty batch and an
absent token, so it returns at most the requested number of records. -/
def c1src : Nat → Nat → SourceResponse Nat Nat :=
  fun _ _ => SourceResponse.ok [] none

theorem fetch_count_invariant_witness :
    (fetchLoop 5 c1src 2 (initState Nat Nat)).1.acc.length ≤ 5 ∧
    (∀ i, ((((fetchLoop 5 c1src 2 (initState Nat Nat)).1.batches.map
        Prod.fst).take i).flatten).length ≤ 5) ∧
    (∀ p ∈ (fetchLoop 5 c1src 2 (initState Nat Nat)).1.reqs,
      p.1 < 5 ∧ p.2 = min 100 (5 - p.1)) :=
  fetch_count_invariant 5 (by decide) c1src
    (fun k bs recs tok h => by
      simp only [c1src, SourceResponse.ok.injEq] at h
      rw [← h.1]
      exact Nat.zero_le bs) 2

/-- C2: if the run ended because a source call raised (`errored = true`), the
accumulator holds exactly the concatenation, in order, of the batches of the
successful calls, and exactly one more call than successful batch was made —
the loop terminated immediately at the failing call, with no retry. -/
theorem fetch_error_partial {R C : Type} (count : Nat)
    (source : Nat → Nat → SourceResponse R C) (fuel : Nat)
    (herr : (fetchLoop count source fuel (initState R C)).1.errored = true) :
    (fetchLoop count source fuel (initState R C)).1.acc =
      ((fetchLoop count source fuel (initState R C)).1.batches.map
        Prod.fst).flatten ∧
    (fetchLoop count source fuel (initState R C)).1.calls =
      (fetchLoop count source fuel (initState R C)).1.batches.length + 1 ∧
    (fetchLoop count source fuel (initState R C)).2 = true := by
  have hjoin := fetchLoop_acc_join count source fuel (initState R C)
    (by simp [initState])
  have hcb := fetchLoop_calls_batches count source fuel (initState R C)
    (by simp [initState]) (by simp [initState])
  exact ⟨hjoin, (hcb.2 herr).1, (hcb.2 herr).2⟩

/-- A source used to witness C2: one successful batch, then an exception. -/
def c2src : Nat → Nat → SourceResponse Nat Nat :=
  fun k _ => if k = 0 then SourceResponse.ok [7] (some 0) else SourceResponse.err

theorem fetch_error_partial_witness :
    (fetchLoop 5 c2src 5 (initState Nat Nat)).1.acc =
      ((fetchLoop 5 c2src 5 (initState Nat Nat)).1.batches.map
        Prod.fst).flatten ∧
    (fetchLoop 5 c2src 5 (initState Nat Nat)).1.calls =
      (fetchLoop 5 c2src 5 (initState Nat Nat)).1.batches.length + 1 ∧
    (fetchLoop 5 c2src 5 (initState Nat Nat)).2 = true :=
  fetch_error_partial 5 c2src 5 (by decide)

/-- C4 (amended): a sleep is executed after exactly those successful batches
whose returned continuation token was present — including a final batch that
brings the count up to the target — and never after a batch with an absent
token or after a failing call. -/
theorem sleep_after_token_batches {R C : Type} (count : Nat)
    (source : Nat → Nat → SourceResponse R C) (fuel : Nat) :
    (fetchLoop count source fuel (initState R C)).1.slept =
      ((fetchLoop count source fuel (initState R C)).1.batches.filter
        (fun b => b.2)).length :=
  fetchLoop_slept count source fuel (initState R C) (by simp [initState])

/-- A source whose single batch of 5 records (with a present token) fills a
target of 5 at once. -/
def c4src : Nat → Nat → SourceResponse Nat Nat :=
  fun _ _ => SourceResponse.ok [0, 0, 0, 0, 0] (some 0)

/-- C4: counterexample to the claim as stated.  With target 5, a source whose
first call returns 5 records and a present token makes the run end right after
its only batch — the batch that brings the accumulated count up to the target
— yet one sleep was executed after it, because the code sleeps whenever the
returned token is present, before re-testing the loop condition. -/
theorem sleep_after_final_batch_counterexample :
    (fetchLoop 5 c4src 3 (initState Nat Nat)).1.acc.length = 5 ∧
    (fetchLoop 5 c4src 3 (initState Nat Nat)).1.batches.length = 1 ∧
    (fetchLoop 5 c4src 3 (initState Nat Nat)).2 = true ∧
    (fetchLoop 5 c4src 3 (initState Nat Nat)).1.slept = 1 := by decide

/-- C5 (amended): when every successful source call returns exactly the
requested batch size, the loop makes at most `ceil(count / 100)` calls.
(Without that assumption the bound fails, see the counterexample.) -/
theorem fetch_calls_le_of_full_batches {R C : Type} (count : Nat)
    (hpos : 0 < count) (source : Nat → Nat → SourceResponse R C)
    (hfull : ∀ k bs recs tok, source k bs = SourceResponse.ok recs tok →
      recs.length = bs) (fuel : Nat) :
    (fetchLoop count source fuel (initState R C)).1.calls ≤ (count + 99) / 100 := by
  have h := fetchLoop_calls_bound count source hfull fuel (initState R C)
  simpa [initState] using h

/-- A source used to witness the amended C5: it always returns exactly the
requested number of records and an absent token. -/
def c5src : Nat → Nat → SourceResponse Nat Nat :=
  fun _ bs => SourceResponse.ok (List.replicate bs 0) none

theorem fetch_calls_le_of_full_batches_witness :
    (fetchLoop 5 c5src 2 (initState Nat Nat)).1.calls ≤ (5 + 99) / 100 :=
  fetch_calls_le_of_full_batches 5 (by decide) c5src
    (fun k bs recs tok h => by
      simp only [c5src, SourceResponse.ok.injEq] at h
      rw [← h.1]
      exact List.length_replicate bs 0) 2

/-- A source that returns a single record and a present token on every call:
fewer records than requested, but the pagination is not exhausted. -/
def c5drip : Nat → Nat → SourceResponse Nat Nat :=
  fun _ _ => SourceResponse.ok [0] (some 0)

/-- C5: counterexample to the claim as stated.  With target 2 the claimed
bound is `ceil(2 / 100) = 1` call, but a source that returns one record per
call with a present token makes the loop perform 2 calls before reaching the
target. -/
theorem fetch_calls_bound_counterexample :
    (fetchLoop 2 c5drip 10 (initState Nat Nat)).1.calls = 2 ∧
    (fetchLoop 2 c5drip 10 (initState Nat Nat)).2 = true ∧
    ¬((fetchLoop 2 c5drip 10 (initState Nat Nat)).1.calls ≤ (2 + 99) / 100) := by
  decide

/-- C6: if the source returns an absent token on the first call, exactly one
batch is fetched (one call, one recorded batch), the loop terminates by
itself, and no sleep is executed during the whole run. -/
theorem first_call_exhausted {R C : Type} (count : Nat) (hpos : 0 < count)
    (source : Nat → Nat → SourceResponse R C) (recs : List R)
    (h0 : source 0 (min 100 count) = SourceResponse.ok recs none) (fuel : Nat) :
    fetchLoop count source (fuel + 1) (initState R C) =
      ({ acc := recs, token := none, calls := 1, slept := 0,
         batches := [(recs, false)], reqs := [(0, min 100 count)],
         errored := false }, true) := by
  rw [fetchLoop]
  simp only [initState, List.length_nil, Nat.sub_zero]
  rw [if_pos hpos, h0]
  simp

/-- A source used to witness C6: its first answer has an absent token. -/
def c6src : Nat → Nat → SourceResponse Nat Nat :=
  fun _ _ => SourceResponse.ok [1, 2] none

theorem first_call_exhausted_witness :
    fetchLoop 5 c6src 1 (initState Nat Nat) =
      ({ acc := [1, 2], token := none, calls := 1, slept := 0,
         batches := [([1, 2], false)], reqs := [(0, min 100 5)],
         errored := false }, true) :=
  first_call_exhausted 5 (by decide) c6src [1, 2] rfl 0

/-! ## Duplicate-column repair (`main`, the `seen` loop) -/

/-- `seen`-dictionary lookup (`col in seen` / `seen[col]`), the dictionary
being represented as an association list. -/
def findSeen : List (String × Nat) → String → Option Nat
  | [], _ => none
  | (k, n) :: rest, c => if k = c then some n else findSeen rest c

/-- `seen[col] += 1`: increment the stored counter of `c`. -/
def bumpSeen : List (String × Nat) → String → List (String × Nat)
  | [], _ => []
  | (k, n) :: rest, c =>
      if k = c then (k, n + 1) :: rest else (k, n) :: bumpSeen rest c

/-- The `for i, col in enumerate(cols)` body of the repair in `main`: a name
seen before gets `_{seen[col]+1}` appended (after the counter is bumped), a
fresh name is kept bare and recorded with counter 0. -/
def dedupPass : List String → List (String × Nat) → List String
  | [], _ => []
  | c :: cs, seen =>
    match findSeen seen c with
    | some n => (c ++ "_" ++ toString (n + 1)) :: dedupPass cs (bumpSeen seen c)
    | none => c :: dedupPass cs (seen ++ [(c, 0)])

/-- The duplicate-column repair of `main`: if
`len(cols) != len(set(cols))` (some name repeats), rebuild the column list
with `dedupPass`; otherwise the columns are left untouched. -/
def fixColumns (cols : List String) : List String :=
  if cols.dedup.length = cols.length then cols else dedupPass cols []

/-- C3: the repair does not guarantee duplicate-free columns.  On the column
list `["a", "a", "a_1"]` the second `"a"` is renamed to `"a_1"`, which
collides with the pre-existing third column `"a_1"`, so the output
`["a", "a_1", "a_1"]` still contains a duplicate — contrary to the claim and
to the code's own comment (`Pastikan tidak ada kolom duplikat`). -/
theorem fixColumns_collision_failing_input :
    fixColumns ["a", "a", "a_1"] = ["a", "a_1", "a_1"] ∧
      ¬(fixColumns ["a", "a", "a_1"]).Nodup := by decide

/-- C7: the repair is idempotent on duplicate-free column lists: a list
without duplicate names is returned unchanged (the `len(cols) != len(set(cols))`
guard fails), hence applying the repair twice gives the list itself. -/
theorem fixColumns_idempotent_on_nodup (cols : List String)
    (h : cols.Nodup) :
    fixColumns cols = cols ∧ fixColumns (fixColumns cols) = cols := by
  have h1 : fixColumns cols = cols := by
    unfold fixColumns
    rw [if_pos (by rw [List.dedup_eq_self.mpr h])]
  exact ⟨h1, by rw [h1, h1]⟩

theorem fixColumns_idempotent_on_nodup_witness :
    fixColumns ["content", "score"] = ["content", "score"] ∧
      fixColumns (fixColumns ["content", "score"]) = ["content", "score"] :=
  fixColumns_idempotent_on_nodup ["content", "score"] (by decide)

/-! ## Manual CSV writer (`main`, the `csv_filename` block)

Values are handled character by character, so a value is a `List Char` (or
`none` for Python's `None`).  `str.replace` with single-character pattern and
replacement is exactly a character-wise map. -/

/-- `.replace(a, b)` for single characters: every occurrence of `a` becomes
`b`. -/
def replaceChar (a b : Char) (s : List Char) : List Char :=
  s.map fun c => if c = a then b else c

/-- The per-value serialization of the manual CSV writer:
`str(val).replace(',', ';').replace('\n', ' ').replace('\r', ' ')` for a
present value, and the empty string for `None`. -/
def sanitize : Option (List Char) → List Char
  | none => []
  | some s => replaceChar '\r' ' ' (replaceChar '\n' ' ' (replaceChar ',' ';' s))

/-- `sep.join(parts)`: parts interleaved with the separator. -/
def joinSep (sep : Char) : List (List Char) → List Char
  | [] => []
  | [p] => p
  | p :: ps => p ++ sep :: joinSep sep ps

/-- Splitting a line on the separator (the recovery operation of the
round-trip property; inverse of `joinSep` on separator-free parts). -/
def splitSep (sep : Char) : List Char → List (List Char)
  | [] => [[]]
  | c :: cs =>
    if c = sep then [] :: splitSep sep cs
    else (c :: (splitSep sep cs).headI) :: (splitSep sep cs).tail

/-- One data line of the manual CSV writer: `','.join(values)` of the
sanitized values. -/
def writeRow (vals : List (Option (List Char))) : List Char :=
  joinSep ',' (vals.map sanitize)

theorem replaceChar_eq_self (a b : Char) (s : List Char) (h : a ∉ s) :
    replaceChar a b s = s := by
  induction s with
  | nil => rfl
  | cons c cs ih =>
    rw [List.mem_cons, not_or] at h
    simp only [replaceChar, List.map_cons] at *
    rw [if_neg (fun hc => h.1 hc.symm), ih h.2]

theorem mem_replaceChar_of_ne (a b x : Char) (s : List Char) (hx : x ∈ s)
    (hxa : x ≠ a) : x ∈ replaceChar a b s := by
  simp only [replaceChar, List.mem_map]
  exact ⟨x, hx, by rw [if_neg hxa]⟩

theorem target_mem_replaceChar (a b : Char) (s : List Char) (ha : a ∈ s) :
    b ∈ replaceChar a b s := by
  simp only [replaceChar, List.mem_map]
  exact ⟨a, ha, by rw [if_pos rfl]⟩

theorem not_mem_replaceChar (a b : Char) (s : List Char) (hab : a ≠ b) :
    a ∉ replaceChar a b s := by
  simp only [replaceChar, List.mem_map]
  rintro ⟨x, hx, hfx⟩
  by_cases hxa : x = a
  · rw [if_pos hxa] at hfx; exact hab hfx.symm
  · rw [if_neg hxa] at hfx; exact hxa hfx

theorem not_mem_replaceChar_of_not_mem (a b x : Char) (s : List Char)
    (hxs : x ∉ s) (hxb : x ≠ b) : x ∉ replaceChar a b s := by
  simp only [replaceChar, List.mem_map]
  rintro ⟨y, hy, hfy⟩
  by_cases hya : y = a
  · rw [if_pos hya] at hfy; exact hxb hfy.symm
  · rw [if_neg hya] at hfy; exact hxs (hfy ▸ hy)

theorem splitSep_of_not_mem (sep : Char) (p : List Char) (h : sep ∉ p) :
    splitSep sep p = [p] := by
  induction p with
  | nil => rfl
  | cons c cs ih =>
    rw [List.mem_cons, not_or] at h
    rw [splitSep, if_neg (fun hc => h.1 hc.symm), ih h.2]
    simp [List.headI]

theorem splitSep_append_sep (sep : Char) (p rest : List Char) (h : sep ∉ p) :
    splitSep sep (p ++ sep :: rest) = p :: splitSep sep rest := by
  induction p with
  | nil => simp [splitSep]
  | cons c cs ih =>
    rw [List.mem_cons, not_or] at h
    rw [List.cons_append, splitSep, if_neg (fun hc => h.1 hc.symm), ih h.2]
    simp [List.headI]

theorem splitSep_joinSep (sep : Char) :
    ∀ parts : List (List Char), parts ≠ [] → (∀ p ∈ parts, sep ∉ p) →
      splitSep sep (joinSep sep parts) = parts := by
  intro parts
  induction parts with
  | nil => intro h; exact absurd rfl h
  | cons p ps ih =>
    intro _ hclean
    cases ps with
    | nil =>
      rw [joinSep]
      exact splitSep_of_not_mem sep p (hclean p (by simp))
    | cons q qs =>
      rw [joinSep, splitSep_append_sep sep p _ (hclean p (by simp))]
      rw [ih (List.cons_ne_nil q qs) (fun r hr => hclean r (List.mem_cons_of_mem p hr))]
      exact fun h => List.noConfusion h

/-- C8: per-value CSV serialization.  A `None` value is written as the empty
string.  A row of values none of which contains the separator `,` or a line
break (`\n`, `\r`) is recovered verbatim by splitting the written line on the
separator.  A value that does contain the separator is changed by the writer
(it does not round-trip) and the written form contains the replacement
character `;`. -/
theorem csv_sanitize_roundtrip :
    sanitize none = [] ∧
    (∀ parts : List (List Char), parts ≠ [] →
      (∀ p ∈ parts, ',' ∉ p ∧ '\n' ∉ p ∧ '\r' ∉ p) →
      splitSep ',' (writeRow (parts.map some)) = parts) ∧
    (∀ s : List Char, ',' ∈ s →
      ';' ∈ sanitize (some s) ∧ sanitize (some s) ≠ s) := by
  refine ⟨rfl, ?_, ?_⟩
  · intro parts hne hclean
    have hmap : parts.map (fun p => sanitize (some p)) = parts := by
      have := List.map_congr_left (l := parts)
        (f := fun p => sanitize (some p)) (g := id) ?_
      · simpa using this
      · intro p hp
        obtain ⟨h1, h2, h3⟩ := hclean p hp
        simp only [sanitize, id_eq]
        rw [replaceChar_eq_self _ _ _ h1, replaceChar_eq_self _ _ _ h2,
          replaceChar_eq_self _ _ _ h3]
    rw [writeRow, List.map_map]
    have : (parts.map (sanitize ∘ some)) = parts := by
      simpa [Function.comp] using hmap
    rw [this]
    refine splitSep_joinSep ',' parts hne fun p hp => (hclean p hp).1
  · intro s hs
    constructor
    · refine mem_replaceChar_of_ne _ _ _ _ ?_ (by decide)
      refine mem_replaceChar_of_ne _ _ _ _ ?_ (by decide)
      exact target_mem_replaceChar _ _ _ hs
    · intro heq
      have hnot : ',' ∉ sanitize (some s) := by
        simp only [sanitize]
        refine not_mem_replaceChar_of_not_mem _ _ _ _ ?_ (by decide)
        refine not_mem_replaceChar_of_not_mem _ _ _ _ ?_ (by decide)
        exact not_mem_replaceChar _ _ _ (by decide)
      rw [heq] at hnot
      exact hnot hs

theorem csv_sanitize_roundtrip_witness :
    splitSep ',' (writeRow ([[ 'a' ], [ 'b' ]].map some)) = [[ 'a' ], [ 'b' ]] ∧
      ';' ∈ sanitize (some [',']) :=
  ⟨csv_sanitize_roundtrip.2.1 [[ 'a' ], [ 'b' ]] (by decide) (by decide),
   (csv_sanitize_roundtrip.2.2 [','] (by decide)).1⟩

/-! ## Persistence control flow (`main`, the CSV and JSON `try` blocks)

The write operations are opaque I/O whose only relevant behaviour is whether
they raise; each is modelled by a `Bool` outcome (`true` = succeeds).  The
conversion `df_reviews.to_dict('records')` is modelled by an
`Option (List α)`: `some` when it returns (binding `records`), `none` when it
raises — in which case the local variable `records` is never bound.  The
observable behaviour is the sequence of success/failure messages printed. -/

/-- The messages the persistence code can print, in order of appearance in
`main`. -/
inductive PEvent where
  | csvSaved
  | csvFailed
  | jsonSaved
  | jsonFailed
  | jsonlSaved
  | jsonlFailed
deriving DecidableEq

/-- The inner `try` of the JSON `except` branch: the line-per-record (JSONL)
fallback.  It iterates over the variable `records`; if `records` was never
bound (the conversion itself raised), the loop raises a `NameError` and the
fallback fails no matter whether the file write would have succeeded. -/
def jsonlFallback {α : Type} (records : Option (List α)) (writeOk : Bool) :
    List PEvent :=
  match records with
  | none => [PEvent.jsonlFailed]
  | some _ => if writeOk then [PEvent.jsonlSaved] else [PEvent.jsonlFailed]

/-- The JSON `try`/`except` of `main`: `records = df.to_dict('records')` then
`json.dump(records, ...)`; on any exception, report failure and run the JSONL
fallback on the (possibly unbound) `records`. -/
def jsonPhase {α : Type} (conv : Option (List α)) (dumpOk writeOk : Bool) :
    List PEvent :=
  match conv with
  | some _ =>
      if dumpOk then [PEvent.jsonSaved]
      else PEvent.jsonFailed :: jsonlFallback conv writeOk
  | none => PEvent.jsonFailed :: jsonlFallback (none : Option (List α)) writeOk

/-- The whole persistence part of `main`: the CSV `try`/`except` (its failure
is caught and reported), then — unconditionally — the JSON phase. -/
def persistTrace {α : Type} (csvOk : Bool) (conv : Option (List α))
    (dumpOk writeOk : Bool) : List PEvent :=
  (if csvOk then [PEvent.csvSaved] else [PEvent.csvFailed]) ++
    jsonPhase conv dumpOk writeOk

/-- Number of fallback (JSONL) attempts recorded in a trace. -/
def countFallback (t : List PEvent) : Nat :=
  (t.filter fun e => e = PEvent.jsonlSaved ∨ e = PEvent.jsonlFailed).length

/-- C9: the two output formats fail independently.  Whatever the outcomes,
the trace is the CSV event (success iff the CSV write succeeded) followed by
the JSON phase, which is computed without reference to the CSV outcome — so a
CSV failure never prevents the JSON write from being attempted; and the JSON
phase performs exactly one degraded JSONL fallback attempt when its primary
serialization fails, and none when it succeeds. -/
theorem persist_formats_independent {α : Type} :
    ∀ (csvOk dumpOk writeOk : Bool) (conv : Option (List α)),
      persistTrace csvOk conv dumpOk writeOk =
        (if csvOk then PEvent.csvSaved else PEvent.csvFailed) ::
          jsonPhase conv dumpOk writeOk ∧
      countFallback (persistTrace csvOk conv dumpOk writeOk) =
        (if conv.isSome && dumpOk then 0 else 1) ∧
      (PEvent.jsonSaved ∈ persistTrace csvOk conv dumpOk writeOk ↔
        conv.isSome && dumpOk = true) := by
  intro csvOk dumpOk writeOk conv
  cases conv <;> cases csvOk <;> cases dumpOk <;> cases writeOk <;>
    simp [persistTrace, jsonPhase, jsonlFallback, countFallback]

/-- C10: the JSONL fallback reuses the `records` variable bound inside the
primary JSON `try` block.  When the conversion to a record list itself raises
(`conv = none`, so `records` is never bound), the fallback fails too,
whatever the outcome the line-writing would have had — the trace is always
`[jsonFailed, jsonlFailed]` and a fallback success is impossible.  When the
conversion completed (`records` bound) and only the primary dump failed, the
fallback can succeed. -/
theorem jsonl_fallback_needs_bound_records :
    ∀ dumpOk writeOk : Bool,
      jsonPhase (none : Option (List Nat)) dumpOk writeOk =
        [PEvent.jsonFailed, PEvent.jsonlFailed] ∧
      PEvent.jsonlSaved ∉ persistTrace true (none : Option (List Nat)) dumpOk writeOk ∧
      jsonPhase (some ([] : List Nat)) false true =
        [PEvent.jsonFailed, PEvent.jsonlSaved] := by
  intro dumpOk writeOk
  cases dumpOk <;> cases writeOk <;>
    simp [persistTrace, jsonPhase, jsonlFallback]

end Gojek
